import Mathlib

/-!
Verification of the ray-so MCP code-image server's render-resource core.

This file gives a shallow embedding, in Lean 4, of the server's browser
lifecycle manager (`renderer/browser-manager.ts`), page pool
(`renderer/page-pool.ts`), admission-control semaphore
(`utils/concurrency.ts`), screenshot capture routines
(`renderer/screenshot.ts`), input validators (`shared/validators.ts`) and
the `create_code_image` tool (`tools/create-code-image.ts`), and proves
properties of the embedded definitions.

Asynchronous effects (page loads, DOM measurement, screenshot encoding)
are modelled by explicit oracle parameters; module-level mutable state is
modelled by explicit state passing or by labelled transition systems whose
steps are the atomic (synchronous) blocks of the JavaScript event loop.
-/

set_option maxRecDepth 4096

namespace RaySo

/-! ## Generic helpers -/

/-- JavaScript `haystack.includes(needle)`: `needle` occurs as a contiguous
substring of `haystack`. -/
def charsContain (needle : List Char) : List Char → Bool
  | [] => needle.isEmpty
  | c :: rest => needle.isPrefixOf (c :: rest) || charsContain needle rest

/-- String form of `charsContain`; mirrors JavaScript `String.includes`. -/
def strIncludes (haystack needle : String) : Bool :=
  charsContain needle.data haystack.data

/-- JavaScript `x || d` for an optional string: `undefined` and the empty
string are falsy and select the default. -/
def jsOrStr (o : Option String) (d : String) : String :=
  match o with
  | none => d
  | some s => if s.isEmpty then d else s

/-- JavaScript `x || d` for an optional number: `undefined` and `0` are
falsy and select the default. -/
def jsOrNat (o : Option Nat) (d : Nat) : Nat :=
  match o with
  | none => d
  | some v => if v == 0 then d else v

/-- A byte buffer (`Buffer` in Node.js): a list of byte values. -/
abbrev ByteBuffer := List Nat

/-- Node.js `buffer.readUInt32BE(off)`: big-endian 32-bit read at a byte
offset (out-of-range bytes read as 0, which never happens on the guarded
path of `getPngDimensions`). -/
def readUInt32BE (b : ByteBuffer) (off : Nat) : Nat :=
  b.getD off 0 * 2 ^ 24 + b.getD (off + 1) 0 * 2 ^ 16 +
    b.getD (off + 2) 0 * 2 ^ 8 + b.getD (off + 3) 0

/-- Base64 alphabet used by Node.js `buffer.toString("base64")`. -/
def base64Alphabet : List Char :=
  "ABCDEFGHIJKLMNOPQRSTUVWXYZabcdefghijklmnopqrstuvwxyz0123456789+/".data

/-- One base64 output character for a 6-bit value. -/
def base64Char (v : Nat) : Char := base64Alphabet.getD v 'A'

/-- Node.js `buffer.toString("base64")`: standard base64 with padding. -/
def base64Encode : ByteBuffer → String
  | [] => ""
  | [a] =>
      String.mk [base64Char (a / 4), base64Char (a % 4 * 16)] ++ "=="
  | [a, b] =>
      String.mk [base64Char (a / 4), base64Char (a % 4 * 16 + b / 16),
        base64Char (b % 16 * 4)] ++ "="
  | a :: b :: c :: rest =>
      String.mk [base64Char (a / 4), base64Char (a % 4 * 16 + b / 16),
        base64Char (b % 16 * 4 + c / 64), base64Char (c % 64)] ++
        base64Encode rest

/-! ## Screenshot capture (`renderer/screenshot.ts`) -/

/-- A value thrown by the JavaScript runtime: either an `Error` carrying a
message, or an arbitrary non-`Error` value (kept as its string rendering). -/
inductive Thrown where
  | err (message : String)
  | other (rendering : String)
deriving DecidableEq, Repr

/-- What `error.message` / `String(error)` yields in the error-formatting
expressions of the source. -/
def thrownText : Thrown → String
  | .err m => m
  | .other s => s

/-- The `ScreenshotError` class: message, machine-readable code, and the
original cause when one was attached. -/
structure ScreenshotErr where
  message : String
  code : String
  cause : Option Thrown
deriving DecidableEq, Repr

/-- A failure escaping a capture routine: either a `ScreenshotError`
constructed by the routine itself, or a raw underlying thrown value that
the routine let propagate unwrapped. -/
inductive CaptureFailure where
  | screenshotError (e : ScreenshotErr)
  | raw (t : Thrown)
deriving DecidableEq, Repr

/-- The four `ScreenshotError` codes of the capture error taxonomy. -/
def screenshotErrCodes : List String :=
  ["TIMEOUT", "PAGE_TIMEOUT", "PAGE_CRASH", "CAPTURE_FAILED"]

/-- Whether a capture failure is a `ScreenshotError` carrying one of the
four taxonomy codes (the shape the specification promises for every
capture failure). -/
def failureInTaxonomy : CaptureFailure → Bool
  | .screenshotError e => screenshotErrCodes.contains e.code
  | .raw _ => false

/-- Viewport dimensions in CSS pixels. -/
structure Viewport where
  width : Nat
  height : Nat
deriving DecidableEq, Repr

/-- Options accepted by `captureScreenshot` (all optional, defaulted from
`DEFAULT_OPTIONS`). -/
structure ScreenshotOptions where
  pixelRatio : Option Nat := none
  viewport : Option Viewport := none
  timeout : Option Nat := none
deriving DecidableEq, Repr

/-- The options object passed to `page.screenshot` by a capture routine:
image type, full-page flag, and whether the default background is omitted. -/
structure ShotCallOptions where
  type : String
  fullPage : Bool
  omitBackground : Bool
deriving DecidableEq, Repr

/-- In Playwright, `omitBackground: true` hides the default white page
background and lets transparent content stay transparent in the output;
with `omitBackground: false` the default background is painted, so
transparency of the rendered content is not preserved. -/
def preservesTransparency (o : ShotCallOptions) : Bool :=
  o.omitBackground

/-- The `page.screenshot` options of `performCapture`
(`screenshot.ts` lines 287-291): `type: "png", fullPage: false,
omitBackground: false`. -/
def performCaptureShotOptions : ShotCallOptions :=
  { type := "png", fullPage := false, omitBackground := false }

/-- The `page.screenshot` options of `captureScreenshotFullContent`
(`screenshot.ts` lines 383-387): `type: "png", fullPage: true,
omitBackground: false`. -/
def fullContentShotOptions : ShotCallOptions :=
  { type := "png", fullPage := true, omitBackground := false }

/-- The measurements `captureScreenshotFullContent` can read inside
`page.evaluate`: the scroll/offset/client extents of `document.body` and
of `document.documentElement`. The structure carries all six extents per
axis that the DOM exposes; the code reads five of them per axis. -/
structure DomMetrics where
  bodyScrollWidth : Nat
  bodyOffsetWidth : Nat
  bodyClientWidth : Nat
  htmlClientWidth : Nat
  htmlScrollWidth : Nat
  htmlOffsetWidth : Nat
  bodyScrollHeight : Nat
  bodyOffsetHeight : Nat
  bodyClientHeight : Nat
  htmlClientHeight : Nat
  htmlScrollHeight : Nat
  htmlOffsetHeight : Nat
deriving DecidableEq, Repr

/-- The width computed by the `page.evaluate` callback
(`screenshot.ts` line 360): `Math.max(body.scrollWidth, body.offsetWidth,
html.clientWidth, html.scrollWidth, html.offsetWidth)`. -/
def measureWidth (m : DomMetrics) : Nat :=
  max m.bodyScrollWidth (max m.bodyOffsetWidth
    (max m.htmlClientWidth (max m.htmlScrollWidth m.htmlOffsetWidth)))

/-- The height computed by the `page.evaluate` callback
(`screenshot.ts` lines 362-368). -/
def measureHeight (m : DomMetrics) : Nat :=
  max m.bodyScrollHeight (max m.bodyOffsetHeight
    (max m.htmlClientHeight (max m.htmlScrollHeight m.htmlOffsetHeight)))

/-- Modelled from the spec's words, for comparison with `measureWidth`:
"the maximum of the scroll/offset/client widths over the document body
and the root element" — the six-way maximum including `body.clientWidth`. -/
def specMeasuredWidth (m : DomMetrics) : Nat :=
  max m.bodyScrollWidth (max m.bodyOffsetWidth (max m.bodyClientWidth
    (max m.htmlClientWidth (max m.htmlScrollWidth m.htmlOffsetWidth))))

/-- Modelled from the spec's words, for comparison with `measureHeight`:
the six-way maximum including `body.clientHeight`. -/
def specMeasuredHeight (m : DomMetrics) : Nat :=
  max m.bodyScrollHeight (max m.bodyOffsetHeight (max m.bodyClientHeight
    (max m.htmlClientHeight (max m.htmlScrollHeight m.htmlOffsetHeight))))

/-- Oracle for the page-level effects of one capture: whether acquiring
the rendering surface (`getBrowser()`, `browser.newContext(...)`,
`context.newPage()`) throws, whether the content load (`page.setContent`)
throws, what the DOM measures, and what `page.screenshot` yields when
invoked with given options at the current viewport. In both capture
routines the surface acquisition happens before the `try` block, so its
failures are never classified. -/
structure PageEnv where
  acquireOutcome : Option Thrown
  loadOutcome : Option Thrown
  metrics : DomMetrics
  shotOutcome : ShotCallOptions → Viewport → Except Thrown ByteBuffer

/-- The catch-clause of `performCapture` (`screenshot.ts` lines 294-309):
classify a thrown value by message substring into `PAGE_TIMEOUT`,
`PAGE_CRASH` or `CAPTURE_FAILED`, always attaching the original cause. -/
def classifyCaptureErr (t : Thrown) : ScreenshotErr :=
  match t with
  | .err msg =>
      if strIncludes msg "timeout" then
        { message := "Page load timed out", code := "PAGE_TIMEOUT", cause := some t }
      else if strIncludes msg "crashed" then
        { message := "Browser page crashed during render", code := "PAGE_CRASH",
          cause := some t }
      else
        { message := "Failed to capture screenshot: " ++ msg,
          code := "CAPTURE_FAILED", cause := some t }
  | .other s =>
      { message := "Failed to capture screenshot: " ++ s,
        code := "CAPTURE_FAILED", cause := some t }

/-- `performCapture` (`screenshot.ts` lines 260-319): await
`getBrowser()`, `browser.newContext(...)` and `context.newPage()` — these
sit before the `try` block (lines 266-274), so a failure there propagates
as the raw thrown value, unclassified — then, inside the `try`, load the
HTML, settle 100ms, and snapshot the visible viewport with
`performCaptureShotOptions`; any value thrown inside the `try` block is
classified by `classifyCaptureErr`. The `pixelRatio` argument configures
the context's device scale factor and does not otherwise affect control
flow. -/
def performCapture (viewport : Viewport) (env : PageEnv) :
    Except CaptureFailure ByteBuffer :=
  match env.acquireOutcome with
  | some t => .error (.raw t)
  | none =>
      match env.loadOutcome with
      | some t => .error (.screenshotError (classifyCaptureErr t))
      | none =>
          match env.shotOutcome performCaptureShotOptions viewport with
          | .error t => .error (.screenshotError (classifyCaptureErr t))
          | .ok b => .ok b

/-- `DEFAULT_OPTIONS` of `screenshot.ts`: pixelRatio 2,
viewport 800x600, timeout 30000. -/
def defaultViewport : Viewport := { width := 800, height := 600 }

/-- `captureScreenshot` (`screenshot.ts` lines 240-255): race
`performCapture` against a timer of `timeout` ms; `timedOut` records which
branch of the race settles first. On timeout the result is a
`ScreenshotError` with code `TIMEOUT` and no cause; otherwise the
result — including a raw, unclassified surface-acquisition failure — is
whatever `performCapture` settles with. -/
def captureScreenshot (opts : ScreenshotOptions) (timedOut : Bool)
    (env : PageEnv) : Except CaptureFailure ByteBuffer :=
  let timeout := opts.timeout.getD 30000
  let viewport := opts.viewport.getD defaultViewport
  if timedOut then
    .error (.screenshotError
      { message := s!"Screenshot capture timed out after {timeout}ms",
        code := "TIMEOUT", cause := none })
  else
    performCapture viewport env

/-- Options accepted by `captureScreenshotFullContent`. -/
structure FullContentOptions where
  pixelRatio : Option Nat := none
  timeout : Option Nat := none
  maxWidth : Option Nat := none
  maxHeight : Option Nat := none
deriving DecidableEq, Repr

/-- The context viewport opened by `captureScreenshotFullContent`
(`screenshot.ts` lines 339-344): the maximum bounds, defaulting to
2000x5000. -/
def fullContentContextViewport (opts : FullContentOptions) : Viewport :=
  { width := opts.maxWidth.getD 2000, height := opts.maxHeight.getD 5000 }

/-- The viewport `captureScreenshotFullContent` resizes to after measuring
(`screenshot.ts` lines 374-377): `min(measured, max)` per dimension. -/
def fullContentFinalViewport (opts : FullContentOptions) (m : DomMetrics) :
    Viewport :=
  { width := min (measureWidth m) (opts.maxWidth.getD 2000),
    height := min (measureHeight m) (opts.maxHeight.getD 5000) }

/-- `captureScreenshotFullContent` (`screenshot.ts` lines 329-398):
acquire a surface (`getBrowser`/`newContext`/`newPage`, lines 338-346,
before the `try`), open the context at the maximum bounds, load the HTML,
measure the content, resize the viewport to `fullContentFinalViewport`,
settle 50ms, snapshot with `fullContentShotOptions`. The destructured
`timeout` option is never used: there is no race against a timer, and the
body has no catch clause — only a finally-style cleanup — so every thrown
value, from acquisition, load or snapshot, propagates unwrapped (as
`CaptureFailure.raw`). -/
def captureScreenshotFullContent (opts : FullContentOptions) (env : PageEnv) :
    Except CaptureFailure ByteBuffer :=
  match env.acquireOutcome with
  | some t => .error (.raw t)
  | none =>
      match env.loadOutcome with
      | some t => .error (.raw t)
      | none =>
          match env.shotOutcome fullContentShotOptions
            (fullContentFinalViewport opts env.metrics) with
          | .error t => .error (.raw t)
          | .ok b => .ok b

/-! ## Page pool (`renderer/page-pool.ts`)

The pool's module-level mutable state (`availablePages`, `pagesInUse`) is
modelled as an explicit `PoolState` threaded through the operations; page
objects are identified by a numeric id, and `page.close()` calls issued by
`releasePage` are recorded in a `destroyedPages` history field. The
JavaScript array `availablePages` pushes and pops at its end; the model
keeps the list reversed, so the head is the most recently pushed entry. -/

/-- `PageConfig`: viewport width/height and device scale factor. -/
structure PageConfig where
  width : Nat
  height : Nat
  deviceScaleFactor : Nat
deriving DecidableEq, Repr

/-- `Partial<PageConfig>`: every field optional. -/
structure PartialPageConfig where
  width : Option Nat := none
  height : Option Nat := none
  deviceScaleFactor : Option Nat := none
deriving DecidableEq, Repr

/-- `DEFAULT_PAGE_CONFIG` (`page-pool.ts` lines 26-30). -/
def DEFAULT_PAGE_CONFIG : PageConfig :=
  { width := 800, height := 600, deviceScaleFactor := 2 }

/-- The spread `{ ...DEFAULT_PAGE_CONFIG, ...config }` at the top of
`getPage`: provided fields override the defaults. -/
def mergePageConfig (c : PartialPageConfig) : PageConfig :=
  { width := c.width.getD DEFAULT_PAGE_CONFIG.width,
    height := c.height.getD DEFAULT_PAGE_CONFIG.height,
    deviceScaleFactor := c.deviceScaleFactor.getD DEFAULT_PAGE_CONFIG.deviceScaleFactor }

/-- `MAX_POOL_SIZE` (`page-pool.ts` line 35). -/
def MAX_POOL_SIZE : Nat := 5

/-- A page object (with the browser context it lives in): identity, the
viewport it is currently configured with, the context's device scale
factor, and whether `page.isClosed()` holds. -/
structure PoolPage where
  id : Nat
  width : Nat
  height : Nat
  deviceScaleFactor : Nat
  closed : Bool
deriving DecidableEq, Repr

/-- The pool's module-level state: the available stack, the in-use set
(page ids), the history of pages destroyed by `releasePage` overflow, and
a counter for fresh page identities. -/
structure PoolState where
  availablePages : List PoolPage
  pagesInUse : List Nat
  destroyedPages : List Nat
  nextPageId : Nat
deriving DecidableEq, Repr

/-- The pool's state at module load: both sets empty. -/
def initialPoolState : PoolState :=
  { availablePages := [], pagesInUse := [], destroyedPages := [], nextPageId := 0 }

/-- `getPage` (`page-pool.ts` lines 54-88): pop an available page if one
exists, re-apply only the viewport (`page.setViewportSize({width,
height})` — the context's device scale factor is untouched) and mark it
in use; otherwise create a fresh context and page with the full merged
configuration. -/
def getPage (cfg : PartialPageConfig) (s : PoolState) : PoolPage × PoolState :=
  let c := mergePageConfig cfg
  match s.availablePages with
  | p :: rest =>
      let reused := { p with width := c.width, height := c.height }
      (reused,
        { s with availablePages := rest,
                 pagesInUse := s.pagesInUse.insert reused.id })
  | [] =>
      let fresh : PoolPage :=
        { id := s.nextPageId, width := c.width, height := c.height,
          deviceScaleFactor := c.deviceScaleFactor, closed := false }
      (fresh,
        { s with pagesInUse := s.pagesInUse.insert fresh.id,
                 nextPageId := s.nextPageId + 1 })

/-- `releasePage` (`page-pool.ts` lines 96-127): no-op unless the page is
in use; remove it from the in-use set; drop it if it already closed
itself; otherwise clear its content and either push it onto the available
stack (when under `MAX_POOL_SIZE`) or close page and context (recorded in
`destroyedPages`). -/
def releasePage (p : PoolPage) (s : PoolState) : PoolState :=
  if p.id ∈ s.pagesInUse then
    let s1 := { s with pagesInUse := s.pagesInUse.erase p.id }
    if p.closed then s1
    else if s1.availablePages.length < MAX_POOL_SIZE then
      { s1 with availablePages := p :: s1.availablePages }
    else
      { s1 with destroyedPages := p.id :: s1.destroyedPages }
  else s

/-- One pool operation issued by a client. -/
inductive PoolOp where
  | get (cfg : PartialPageConfig)
  | release (p : PoolPage)
deriving Repr

/-- Apply one pool operation to the state (the page returned by `getPage`
goes to the caller; only the state evolves here). -/
def stepPool (s : PoolState) (op : PoolOp) : PoolState :=
  match op with
  | .get cfg => (getPage cfg s).2
  | .release p => releasePage p s

/-- Run a sequence of pool operations from the initial state. -/
def runPool (ops : List PoolOp) : PoolState :=
  ops.foldl stepPool initialPoolState

/-- Identities currently tracked by the pool: available pages then in-use
pages. -/
def poolIds (s : PoolState) : List Nat :=
  s.availablePages.map (fun p => p.id) ++ s.pagesInUse

/-- The pool's structural invariant: the available stack is capped at
`MAX_POOL_SIZE`, no identity is tracked twice (in particular the available
and in-use sets are disjoint), and all tracked identities were allocated
by the fresh-id counter. -/
def PoolInv (s : PoolState) : Prop :=
  s.availablePages.length ≤ MAX_POOL_SIZE ∧
  (poolIds s).Nodup ∧
  ∀ i ∈ poolIds s, i < s.nextPageId

theorem poolInv_initial : PoolInv initialPoolState := by
  refine ⟨?_, ?_, ?_⟩ <;> simp [initialPoolState, poolIds, MAX_POOL_SIZE]

theorem poolInv_getPage (cfg : PartialPageConfig) (s : PoolState)
    (h : PoolInv s) : PoolInv (getPage cfg s).2 := by
  obtain ⟨hlen, hnodup, hbound⟩ := h
  cases hav : s.availablePages with
  | nil =>
      have hred : (getPage cfg s).2 =
          { s with pagesInUse := s.pagesInUse.insert s.nextPageId,
                   nextPageId := s.nextPageId + 1 } := by
        unfold getPage; rw [hav]
      have hfresh : s.nextPageId ∉ s.pagesInUse := by
        intro hmem
        have := hbound s.nextPageId (by simp [poolIds, hmem])
        omega
      have huse : s.pagesInUse.Nodup := by
        have hn := hnodup
        rw [poolIds, hav] at hn
        simpa using hn
      rw [hred]
      refine ⟨hlen.trans (by omega), ?_, ?_⟩
      · simp only [poolIds, hav, List.map_nil, List.nil_append,
          List.insert_of_not_mem hfresh, List.nodup_cons]
        exact ⟨hfresh, huse⟩
      · intro i hi
        simp only [poolIds, hav, List.map_nil, List.nil_append,
          List.insert_of_not_mem hfresh, List.mem_cons] at hi
        show i < s.nextPageId + 1
        rcases hi with rfl | hi
        · omega
        · have := hbound i (by simp [poolIds, hi])
          omega
  | cons p rest =>
      have hred : (getPage cfg s).2 =
          { s with availablePages := rest,
                   pagesInUse := s.pagesInUse.insert p.id } := by
        unfold getPage; rw [hav]
      rw [poolIds, hav] at hnodup hbound
      simp only [List.map_cons, List.cons_append, List.nodup_cons,
        List.mem_append, List.mem_map] at hnodup
      obtain ⟨hpnot, hnodup'⟩ := hnodup
      have hpnotUse : p.id ∉ s.pagesInUse := fun hm => hpnot (Or.inr hm)
      have hpnotAvail : p.id ∉ rest.map (fun q => q.id) := fun hm => by
        simp only [List.mem_map] at hm
        exact hpnot (Or.inl hm)
      rw [hred]
      refine ⟨?_, ?_, ?_⟩
      · have hl : s.availablePages.length ≤ MAX_POOL_SIZE := hlen
        rw [hav] at hl
        show rest.length ≤ MAX_POOL_SIZE
        simp only [List.length_cons] at hl
        omega
      · simp only [poolIds, List.insert_of_not_mem hpnotUse]
        rw [List.nodup_append] at hnodup' ⊢
        obtain ⟨h1, h2, h3⟩ := hnodup'
        refine ⟨h1, List.Nodup.cons hpnotUse h2, ?_⟩
        intro a ha hb
        simp only [List.mem_cons] at hb
        rcases hb with rfl | hb
        · exact hpnotAvail ha
        · exact h3 ha hb
      · intro i hi
        simp only [poolIds, List.insert_of_not_mem hpnotUse, List.mem_append,
          List.mem_cons] at hi
        show i < s.nextPageId
        have hper : i ∈ p.id :: (rest.map (fun q => q.id) ++ s.pagesInUse) := by
          simp only [List.mem_cons, List.mem_append]
          tauto
        exact hbound i (by simpa using hper)

theorem poolInv_releasePage (p : PoolPage) (s : PoolState)
    (h : PoolInv s) : PoolInv (releasePage p s) := by
  obtain ⟨hlen, hnodup, hbound⟩ := h
  by_cases hm : p.id ∈ s.pagesInUse
  · rw [poolIds, List.nodup_append] at hnodup
    obtain ⟨havN, huseN, hdisj⟩ := hnodup
    have heraseN : (s.pagesInUse.erase p.id).Nodup := huseN.erase p.id
    have heraseSub : ∀ i ∈ s.pagesInUse.erase p.id, i ∈ s.pagesInUse :=
      fun i hi => List.mem_of_mem_erase hi
    cases hc : p.closed
    · by_cases hfull : s.availablePages.length < MAX_POOL_SIZE
      · have hred : releasePage p s =
            { s with availablePages := p :: s.availablePages,
                     pagesInUse := s.pagesInUse.erase p.id } := by
          simp [releasePage, hm, hc, hfull]
        have hpErase : p.id ∉ s.pagesInUse.erase p.id := fun hcontra => by
          have := (huseN.mem_erase_iff).mp hcontra
          exact this.1 rfl
        have hpAvail : p.id ∉ s.availablePages.map (fun q => q.id) :=
          fun hcontra => hdisj hcontra hm
        rw [hred]
        refine ⟨?_, ?_, ?_⟩
        · show (p :: s.availablePages).length ≤ MAX_POOL_SIZE
          simp only [List.length_cons]
          omega
        · rw [poolIds, List.nodup_append]
          simp only [List.map_cons]
          refine ⟨List.Nodup.cons hpAvail havN, heraseN, ?_⟩
          intro a ha hb
          simp only [List.mem_cons] at ha
          rcases ha with rfl | ha
          · exact hpErase hb
          · exact hdisj ha (heraseSub a hb)
        · intro i hi
          rw [poolIds] at hi
          simp only [List.map_cons, List.cons_append, List.mem_cons,
            List.mem_append] at hi
          show i < s.nextPageId
          rcases hi with rfl | hi | hi
          · exact hbound _ (by simp [poolIds, hm])
          · exact hbound i (by simp [poolIds, hi])
          · exact hbound i (by simp [poolIds, heraseSub i hi])
      · have hred : releasePage p s =
            { s with pagesInUse := s.pagesInUse.erase p.id,
                     destroyedPages := p.id :: s.destroyedPages } := by
          simp [releasePage, hm, hc, hfull]
        rw [hred]
        refine ⟨hlen, ?_, ?_⟩
        · rw [poolIds, List.nodup_append]
          exact ⟨havN, heraseN, fun a ha hb => hdisj ha (heraseSub a hb)⟩
        · intro i hi
          rw [poolIds] at hi
          simp only [List.mem_append] at hi
          show i < s.nextPageId
          rcases hi with hi | hi
          · exact hbound i (by simp [poolIds, hi])
          · exact hbound i (by simp [poolIds, heraseSub i hi])
    · have hred : releasePage p s =
          { s with pagesInUse := s.pagesInUse.erase p.id } := by
        simp [releasePage, hm, hc]
      rw [hred]
      refine ⟨hlen, ?_, ?_⟩
      · rw [poolIds, List.nodup_append]
        exact ⟨havN, heraseN, fun a ha hb => hdisj ha (heraseSub a hb)⟩
      · intro i hi
        rw [poolIds] at hi
        simp only [List.mem_append] at hi
        show i < s.nextPageId
        rcases hi with hi | hi
        · exact hbound i (by simp [poolIds, hi])
        · exact hbound i (by simp [poolIds, heraseSub i hi])
  · have hred : releasePage p s = s := by
      simp [releasePage, hm]
    rw [hred]
    exact ⟨hlen, hnodup, hbound⟩

theorem poolInv_stepPool (s : PoolState) (op : PoolOp) (h : PoolInv s) :
    PoolInv (stepPool s op) := by
  cases op with
  | get cfg => exact poolInv_getPage cfg s h
  | release p => exact poolInv_releasePage p s h

theorem poolInv_runPool (ops : List PoolOp) : PoolInv (runPool ops) := by
  have main : ∀ (l : List PoolOp) (s : PoolState), PoolInv s →
      PoolInv (l.foldl stepPool s) := by
    intro l
    induction l with
    | nil => intro s hs; simpa using hs
    | cons op rest ih =>
        intro s hs
        exact ih _ (poolInv_stepPool s op hs)
  exact main ops initialPoolState poolInv_initial

/-! ## Admission-control semaphore (`utils/concurrency.ts`)

The `Semaphore` class is modelled as a labelled transition system whose
steps are the atomic synchronous blocks of its methods. Waiters in the
`waiting` array are identified by fresh numeric ids. The `active` field is
a history variable counting permits granted and not yet released: the
claims quantify over properly paired acquire/release sequences, which is
exactly the guard `0 < active` on the release steps. -/

/-- The state of a `Semaphore` instance. -/
structure SemState where
  permits : Nat
  waiting : List Nat
  active : Nat
  nextWaiter : Nat
deriving DecidableEq, Repr

/-- `new Semaphore(n)`: `permits = n`, empty waiting queue. -/
def initSemState (n : Nat) : SemState :=
  { permits := n, waiting := [], active := 0, nextWaiter := 0 }

/-- Labels of semaphore transitions. `acquireNow` is the fast path of
`acquire` (lines 71-74); `enqueue` is the slow path pushing a resolver
onto `waiting` (line 93); `timeoutDrop w` is the timeout callback removing
waiter `w` and resolving `false` (lines 78-85); `releaseWake w` is
`release` waking the queue head `w` whose `onRelease` re-decrements the
just-incremented counter (lines 100-110 with 87-91); `releaseIdle` is
`release` with an empty queue (line 101). -/
inductive SemLabel where
  | acquireNow
  | enqueue (w : Nat)
  | timeoutDrop (w : Nat)
  | releaseWake (w : Nat)
  | releaseIdle
deriving DecidableEq, Repr

/-- Number of permits granted by a step with this label: the fast path of
`acquire` grants one, and a release that wakes a waiter grants one to it. -/
def grantsOf : SemLabel → Nat
  | .acquireNow => 1
  | .releaseWake _ => 1
  | _ => 0

/-- Number of permits returned by a step with this label. -/
def releasesOf : SemLabel → Nat
  | .releaseWake _ => 1
  | .releaseIdle => 1
  | _ => 0

/-- The transition relation of the semaphore, one constructor per atomic
block of the source. -/
inductive SemStep : SemState → SemLabel → SemState → Prop where
  | acquireNow (s : SemState) (h : 0 < s.permits) :
      SemStep s .acquireNow
        { s with permits := s.permits - 1, active := s.active + 1 }
  | enqueue (s : SemState) (h : s.permits = 0) :
      SemStep s (.enqueue s.nextWaiter)
        { s with waiting := s.waiting ++ [s.nextWaiter],
                 nextWaiter := s.nextWaiter + 1 }
  | timeoutDrop (s : SemState) (w : Nat) (h : w ∈ s.waiting) :
      SemStep s (.timeoutDrop w) { s with waiting := s.waiting.erase w }
  | releaseWake (s : SemState) (w : Nat) (rest : List Nat)
      (ha : 0 < s.active) (hw : s.waiting = w :: rest) :
      SemStep s (.releaseWake w) { s with waiting := rest }
  | releaseIdle (s : SemState) (ha : 0 < s.active) (hw : s.waiting = []) :
      SemStep s .releaseIdle
        { s with permits := s.permits + 1, active := s.active - 1 }

/-- States reachable from `initSemState n` by properly paired operations. -/
inductive SemReachable (n : Nat) : SemState → Prop where
  | init : SemReachable n (initSemState n)
  | step {s : SemState} {l : SemLabel} {s' : SemState} :
      SemReachable n s → SemStep s l s' → SemReachable n s'

/-- A finite run of the semaphore, recording the labels taken. -/
inductive SemTrace : SemState → List SemLabel → SemState → Prop where
  | nil (s : SemState) : SemTrace s [] s
  | cons {s : SemState} {l : SemLabel} {s' : SemState} {ls : List SemLabel}
      {s'' : SemState} :
      SemStep s l s' → SemTrace s' ls s'' → SemTrace s (l :: ls) s''

/-- Inductive invariant of the semaphore machine. -/
def SemInv (n : Nat) (s : SemState) : Prop :=
  s.permits + s.active = n ∧
  (s.waiting ≠ [] → s.permits = 0) ∧
  s.waiting.Nodup ∧
  ∀ w ∈ s.waiting, w < s.nextWaiter

theorem semInv_init (n : Nat) : SemInv n (initSemState n) := by
  refine ⟨by simp [initSemState], by simp [initSemState], by simp [initSemState],
    by simp [initSemState]⟩

theorem semInv_step {n : Nat} {s : SemState} {l : SemLabel} {s' : SemState}
    (h : SemInv n s) (hs : SemStep s l s') : SemInv n s' := by
  obtain ⟨hsum, hzero, hnodup, hbound⟩ := h
  cases hs with
  | acquireNow h =>
      refine ⟨?_, ?_, hnodup, hbound⟩
      · show s.permits - 1 + (s.active + 1) = n
        omega
      · intro hw
        show s.permits - 1 = 0
        have := hzero hw
        omega
  | enqueue h =>
      refine ⟨hsum, fun _ => h, ?_, ?_⟩
      · show (s.waiting ++ [s.nextWaiter]).Nodup
        rw [List.nodup_append]
        refine ⟨hnodup, List.nodup_singleton _, ?_⟩
        intro a ha hb
        simp only [List.mem_singleton] at hb
        subst hb
        exact absurd (hbound _ ha) (by omega)
      · intro w hw
        have hw' : w ∈ s.waiting ++ [s.nextWaiter] := hw
        show w < s.nextWaiter + 1
        simp only [List.mem_append, List.mem_singleton] at hw'
        rcases hw' with hw' | rfl
        · have := hbound w hw'
          omega
        · omega
  | timeoutDrop w h =>
      refine ⟨hsum, ?_, hnodup.erase w, ?_⟩
      · intro hw
        have hw' : s.waiting.erase w ≠ [] := hw
        show s.permits = 0
        refine hzero ?_
        intro hnil
        rw [hnil] at hw'
        simp at hw'
      · intro x hx
        have hx' : x ∈ s.waiting.erase w := hx
        show x < s.nextWaiter
        exact hbound x (List.mem_of_mem_erase hx')
  | releaseWake w rest ha hw =>
      rw [hw] at hzero hnodup hbound
      refine ⟨hsum, fun _ => hzero (by simp), (List.nodup_cons.mp hnodup).2, ?_⟩
      intro x hx
      have hx' : x ∈ rest := hx
      show x < s.nextWaiter
      exact hbound x (by simp [hx'])
  | releaseIdle ha hw =>
      refine ⟨?_, ?_, ?_, ?_⟩
      · show s.permits + 1 + (s.active - 1) = n
        omega
      · intro hw'
        have : s.waiting ≠ [] := hw'
        exact absurd hw this
      · show s.waiting.Nodup
        exact hnodup
      · intro x hx
        have hx' : x ∈ s.waiting := hx
        show x < s.nextWaiter
        exact hbound x hx'

theorem semInv_reachable {n : Nat} {s : SemState} (h : SemReachable n s) :
    SemInv n s := by
  induction h with
  | init => exact semInv_init n
  | step _ hs ih => exact semInv_step ih hs

theorem semStep_permits_accounting {s : SemState} {l : SemLabel} {s' : SemState}
    (h : SemStep s l s') :
    s'.permits + grantsOf l = s.permits + releasesOf l := by
  cases h with
  | acquireNow h => show s.permits - 1 + 1 = s.permits + 0; omega
  | enqueue h => show s.permits + 0 = s.permits + 0; rfl
  | timeoutDrop w h => show s.permits + 0 = s.permits + 0; rfl
  | releaseWake w rest ha hw => show s.permits + 1 = s.permits + 1; rfl
  | releaseIdle ha hw => show s.permits + 1 + 0 = s.permits + 1; rfl

/-- A waiter that is no longer queued and whose id is in the allocated
range: such a waiter can never reappear in the queue. -/
def WaiterGone (w : Nat) (s : SemState) : Prop :=
  w ∉ s.waiting ∧ w < s.nextWaiter

theorem waiterGone_step {w : Nat} {s : SemState} {l : SemLabel} {s' : SemState}
    (hg : WaiterGone w s) (hs : SemStep s l s') : WaiterGone w s' := by
  obtain ⟨hnot, hlt⟩ := hg
  cases hs with
  | acquireNow h => exact ⟨hnot, hlt⟩
  | enqueue h =>
      refine ⟨?_, ?_⟩
      · intro hw
        have hw' : w ∈ s.waiting ++ [s.nextWaiter] := hw
        simp only [List.mem_append, List.mem_singleton] at hw'
        rcases hw' with hw' | rfl
        · exact hnot hw'
        · omega
      · show w < s.nextWaiter + 1
        omega
  | timeoutDrop x h =>
      exact ⟨fun hw => hnot (List.mem_of_mem_erase hw), hlt⟩
  | releaseWake x rest ha hw =>
      refine ⟨?_, hlt⟩
      intro hmem
      exact hnot (by rw [hw]; simp [hmem])
  | releaseIdle ha hw => exact ⟨hnot, hlt⟩

theorem waiterGone_step_not_granted {w : Nat} {s : SemState} {l : SemLabel}
    {s' : SemState} (hg : WaiterGone w s) (hs : SemStep s l s') :
    l ≠ .releaseWake w := by
  intro hl
  cases hs with
  | acquireNow h => cases hl
  | enqueue h => cases hl
  | timeoutDrop x h => cases hl
  | releaseWake x rest ha hw =>
      cases hl
      exact hg.1 (by rw [hw]; simp)
  | releaseIdle ha hw => cases hl

theorem waiterGone_trace {w : Nat} {s : SemState} {ls : List SemLabel}
    {s' : SemState} (hg : WaiterGone w s) (ht : SemTrace s ls s') :
    SemLabel.releaseWake w ∉ ls ∧ WaiterGone w s' := by
  induction ht with
  | nil s => exact ⟨by simp, hg⟩
  | cons hstep _ ih =>
      have hg' := waiterGone_step hg hstep
      have hne := waiterGone_step_not_granted hg hstep
      obtain ⟨hnot, hgone⟩ := ih hg'
      refine ⟨?_, hgone⟩
      intro hmem
      simp only [List.mem_cons] at hmem
      rcases hmem with hmem | hmem
      · exact hne hmem.symm
      · exact hnot hmem

/-! ## Browser manager (`renderer/browser-manager.ts`)

The module-level singletons `browserInstance` and `browserLaunchPromise`
are modelled as a labelled transition system. A browser handle carries the
id of the launch that produced it and its `isConnected()` state; a pending
launch is identified by a fresh numeric id. Each `getBrowser` call's
synchronous prefix (the two checks and, possibly, starting a launch) is
one atomic step, as it contains no `await` before the promise is stored. -/

/-- A browser handle: the launch that produced it and its connection
state. -/
structure BrowserRef where
  launchId : Nat
  connected : Bool
deriving DecidableEq, Repr

/-- The module-level state of the browser manager. `launchCount` is a
history variable counting how many underlying launches were started. -/
structure BMState where
  browserInstance : Option BrowserRef
  browserLaunch : Option Nat
  nextLaunchId : Nat
  launchCount : Nat
deriving DecidableEq, Repr

/-- State at module load: no instance, no launch in flight. -/
def initBMState : BMState :=
  { browserInstance := none, browserLaunch := none, nextLaunchId := 0,
    launchCount := 0 }

/-- What a `getBrowser` call observes when its synchronous prefix runs:
the connected singleton, the pending launch it will await, or a launch it
starts itself. -/
inductive GetBrowserOutcome where
  | existing (b : BrowserRef)
  | joinLaunch (l : Nat)
  | newLaunch (l : Nat)
deriving DecidableEq, Repr

/-- Labels of browser-manager transitions. -/
inductive BMLabel where
  | served (r : GetBrowserOutcome)
  | launchResolved (l : Nat) (ok : Bool)
  | crashed
  | disconnectHandled
deriving DecidableEq, Repr

/-- Transition relation for the browser manager:
`getConnected`/`getJoin`/`getStart` are the three paths through
`getBrowser` (lines 50-70); `launchOk`/`launchFail` resolve the pending
launch promise (the `try`/`finally` setting `browserInstance` and
clearing `browserLaunchPromise`); `crash` is the underlying process
dying (`isConnected()` starts returning false); `handleDisconnect` is
the `disconnected` event handler clearing the singleton (lines 93-97). -/
inductive BMStep : BMState → BMLabel → BMState → Prop where
  | getConnected (s : BMState) (b : BrowserRef)
      (h : s.browserInstance = some b) (hc : b.connected = true) :
      BMStep s (.served (.existing b)) s
  | getJoin (s : BMState) (l : Nat)
      (hnc : ∀ b, s.browserInstance = some b → b.connected = false)
      (h : s.browserLaunch = some l) :
      BMStep s (.served (.joinLaunch l)) s
  | getStart (s : BMState)
      (hnc : ∀ b, s.browserInstance = some b → b.connected = false)
      (h : s.browserLaunch = none) :
      BMStep s (.served (.newLaunch s.nextLaunchId))
        { s with browserLaunch := some s.nextLaunchId,
                 nextLaunchId := s.nextLaunchId + 1,
                 launchCount := s.launchCount + 1 }
  | launchOk (s : BMState) (l : Nat) (h : s.browserLaunch = some l) :
      BMStep s (.launchResolved l true)
        { s with browserInstance := some { launchId := l, connected := true },
                 browserLaunch := none }
  | launchFail (s : BMState) (l : Nat) (h : s.browserLaunch = some l) :
      BMStep s (.launchResolved l false) { s with browserLaunch := none }
  | crash (s : BMState) (b : BrowserRef) (h : s.browserInstance = some b) :
      BMStep s .crashed
        { s with browserInstance := some { b with connected := false } }
  | handleDisconnect (s : BMState) (b : BrowserRef)
      (h : s.browserInstance = some b) :
      BMStep s .disconnectHandled { s with browserInstance := none }

/-- States reachable from module load. -/
inductive BMReachable : BMState → Prop where
  | init : BMReachable initBMState
  | step {s : BMState} {l : BMLabel} {s' : BMState} :
      BMReachable s → BMStep s l s' → BMReachable s'

/-- A finite run of the browser manager, recording the labels taken. -/
inductive BMTrace : BMState → List BMLabel → BMState → Prop where
  | nil (s : BMState) : BMTrace s [] s
  | cons {s : BMState} {l : BMLabel} {s' : BMState} {ls : List BMLabel}
      {s'' : BMState} :
      BMStep s l s' → BMTrace s' ls s'' → BMTrace s (l :: ls) s''

/-- Inductive invariant: while a launch is pending, the singleton holds no
connected instance (`getBrowser` would have returned it before checking
the promise otherwise). -/
def BMInv (s : BMState) : Prop :=
  s.browserLaunch.isSome →
    ∀ b, s.browserInstance = some b → b.connected = false

theorem bmInv_init : BMInv initBMState := by
  intro _ b hb
  simp [initBMState] at hb

theorem bmInv_step {s : BMState} {l : BMLabel} {s' : BMState}
    (h : BMInv s) (hs : BMStep s l s') : BMInv s' := by
  cases hs with
  | getConnected b hb hc => exact h
  | getJoin l hnc hl => exact h
  | getStart hnc hl =>
      intro _ b hb
      exact hnc b hb
  | launchOk l hl =>
      intro hpending
      simp at hpending
  | launchFail l hl =>
      intro _ b hb
      have hp : s.browserLaunch.isSome := by rw [hl]; rfl
      exact h hp b hb
  | crash b hb =>
      intro hpending b' hb'
      have hb'' : (some { b with connected := false } : Option BrowserRef)
          = some b' := hb'
      simp only [Option.some.injEq] at hb''
      rw [← hb'']
  | handleDisconnect b hb =>
      intro _ b' hb'
      simp at hb'

theorem bmInv_reachable {s : BMState} (h : BMReachable s) : BMInv s := by
  induction h with
  | init => exact bmInv_init
  | step _ hs ih => exact bmInv_step ih hs

/-- During a run containing no launch resolution, a pending launch stays
pending and the invariant persists; every `getBrowser` served in that
window joins the pending launch, and no new underlying launch starts. -/
theorem bm_pending_window {s : BMState} {L : Nat} {l : BMLabel} {s' : BMState}
    (hinv : BMInv s) (hL : s.browserLaunch = some L)
    (hs : BMStep s l s')
    (hnores : ∀ l' ok, l ≠ .launchResolved l' ok) :
    s'.browserLaunch = some L ∧ BMInv s' ∧
      s'.launchCount = s.launchCount ∧
      (∀ r, l = .served r → r = .joinLaunch L) := by
  cases hs with
  | getConnected b hb hc =>
      have := hinv (by rw [hL]; rfl) b hb
      rw [hc] at this
      cases this
  | getJoin l' hnc hl =>
      have : l' = L := by rw [hl] at hL; exact (Option.some.injEq _ _ ▸ hL).symm ▸ rfl
      subst this
      refine ⟨hL, hinv, rfl, ?_⟩
      intro r hr
      cases hr
      rfl
  | getStart hnc hl => rw [hl] at hL; cases hL
  | launchOk l' hl => exact absurd rfl (hnores l' true)
  | launchFail l' hl => exact absurd rfl (hnores l' false)
  | crash b hb =>
      refine ⟨hL, ?_, rfl, ?_⟩
      · intro _ b' hb'
        simp only [Option.some.injEq] at hb'
        rw [← hb']
      · intro r hr
        cases hr
  | handleDisconnect b hb =>
      refine ⟨hL, ?_, rfl, ?_⟩
      · intro _ b' hb'
        simp at hb'
      · intro r hr
        cases hr

/-! ## Validators (`shared/validators.ts`)

The theme and language lookup tables (`shared/themes.ts`,
`shared/languages.ts`) are external data consumed as key sets; they are
passed in as the lists of valid ids. -/

/-- `VALID_PADDINGS` (`validators.ts` line 11). -/
def VALID_PADDINGS : List Nat := [16, 32, 64, 128]

/-- `VALID_EXPORT_SIZES` (`validators.ts` line 17). -/
def VALID_EXPORT_SIZES : List Nat := [2, 4, 6]

/-- `isValidThemeId`: `!id` (the empty string is falsy) fails, else `id in
THEMES`. -/
def isValidThemeId (themeIds : List String) (id : String) : Bool :=
  !id.isEmpty && themeIds.contains id

/-- `isValidLanguageId`: same shape over the language table. -/
def isValidLanguageId (langIds : List String) (id : String) : Bool :=
  !id.isEmpty && langIds.contains id

/-- `isValidPadding`: membership in `VALID_PADDINGS`. -/
def isValidPadding (v : Nat) : Bool := VALID_PADDINGS.contains v

/-- `isValidExportSize`: membership in `VALID_EXPORT_SIZES`. -/
def isValidExportSize (v : Nat) : Bool := VALID_EXPORT_SIZES.contains v

/-- `isValidHighlightedLines`: every entry a positive integer (entries are
already integers in the typed embedding). -/
def isValidHighlightedLines (lines : List Int) : Bool :=
  lines.all (fun line => decide (0 < line))

/-- `isValidCode`: a string of positive length (the `typeof` check is
discharged by the embedding's types). -/
def isValidCode (code : String) : Bool := decide (0 < code.length)

/-- The parameter object `createCodeImage` passes to
`validateCodeImageParams`. -/
structure ValidateParams where
  code : String
  theme : Option String
  language : Option String
  padding : Option Nat
  exportSize : Option Nat
  highlightedLines : Option (List Int)
deriving DecidableEq, Repr

/-- `ValidationResult`: a flag plus an optional message. -/
structure ValidationResult where
  valid : Bool
  error : Option String
deriving DecidableEq, Repr

/-- `validateCodeImageParams` (`validators.ts` lines 82-139): the checks
in source order, each with its exact message. -/
def validateCodeImageParams (themeIds langIds : List String)
    (params : ValidateParams) : ValidationResult :=
  if !isValidCode params.code then
    { valid := false,
      error := some "Code is required and must be a non-empty string" }
  else if params.theme.isSome ∧
      !isValidThemeId themeIds (params.theme.getD "") then
    let t := params.theme.getD ""
    { valid := false,
      error := some (s!"Invalid theme ID: \"{t}\"" ++
        ". Use list_themes to see available themes.") }
  else if params.language.isSome ∧
      !isValidLanguageId langIds (params.language.getD "") then
    let t := params.language.getD ""
    { valid := false,
      error := some (s!"Invalid language ID: \"{t}\"" ++
        ". Use list_languages to see available languages.") }
  else if params.padding.isSome ∧
      !isValidPadding (params.padding.getD 0) then
    { valid := false,
      error := some (s!"Invalid padding value: {params.padding.getD 0}" ++
        ". Valid values are: " ++
        String.intercalate ", " (VALID_PADDINGS.map toString)) }
  else if params.exportSize.isSome ∧
      !isValidExportSize (params.exportSize.getD 0) then
    { valid := false,
      error := some (s!"Invalid export size: {params.exportSize.getD 0}" ++
        ". Valid values are: " ++
        String.intercalate ", " (VALID_EXPORT_SIZES.map toString)) }
  else if params.highlightedLines.isSome ∧
      !isValidHighlightedLines (params.highlightedLines.getD []) then
    { valid := false,
      error := some "Invalid highlighted lines. Must be an array of positive integers." }
  else
    { valid := true, error := none }

/-! ## The `create_code_image` tool (`tools/create-code-image.ts`)

The HTML generator and the language auto-detector are external
collaborators, passed in as functions. The tool's interactions with the
rendering stack are recorded as a list of `RenderEvent`s so that absence
of an interaction is expressible. -/

/-- Options handed to the HTML-generation collaborator
(`generateCodeFrameHtml`). -/
structure FrameOptions where
  code : String
  theme : String
  darkMode : Bool
  language : String
  padding : Nat
  background : Bool
  lineNumbers : Bool
  fileName : String
  highlightedLines : List Int

/-- The external collaborators `createCodeImage` calls. -/
structure Collaborators where
  detectLanguage : String → String
  generateCodeFrameHtml : FrameOptions → String

/-- Interactions of the tool layer with the rendering stack. Permit
acquisition/release on the admission gate have their own events so that a
trace shows whether the gate was used. -/
inductive RenderEvent where
  | generateHtml
  | acquirePermit
  | captureCall
  | releasePermit
deriving DecidableEq, Repr

/-- `acquireRenderSlot` (`concurrency.ts` lines 151-181): a pure view as a
function of whether the underlying `Semaphore.acquire` resolved `true`.
On `false` the function returns `null` (here `none`) — it does not throw.
On `true` it returns the release closure (here a unit token) and an
`acquirePermit` event. -/
def acquireRenderSlot (acquired : Bool) : Option Unit × List RenderEvent :=
  if acquired then (some (), [.acquirePermit]) else (none, [])

/-- `withRenderSlot` (`concurrency.ts` lines 189-201): acquire a slot,
fail with an error value when denied, otherwise run the body and always
release. This combinator exists in the repository but has no caller. -/
def withRenderSlot {α : Type} (acquireTimeout : Nat) (acquired : Bool)
    (body : α × List RenderEvent) : Except String α × List RenderEvent :=
  match acquireRenderSlot acquired with
  | (some _, evs) => (.ok body.1, evs ++ body.2 ++ [.releasePermit])
  | (none, evs) =>
      (.error (s!"Failed to acquire render slot after {acquireTimeout}ms. " ++
        "Server may be overloaded."), evs)

/-- Input of `create_code_image` (all optional fields optional). -/
structure CreateCodeImageInput where
  code : String
  language : Option String := none
  theme : Option String := none
  darkMode : Option Bool := none
  padding : Option Nat := none
  background : Option Bool := none
  lineNumbers : Option Bool := none
  fileName : Option String := none
  highlightedLines : Option (List Int) := none
  exportSize : Option Nat := none

/-- Result of `create_code_image`: the success shape
(base64 image, mime type, width, height) or the error shape
(message, error code). -/
inductive CreateCodeImageResult where
  | success (image : String) (mimeType : String) (width height : Nat)
  | failure (error : String) (errorCode : String)
deriving DecidableEq, Repr

/-- The parameter subset `createCodeImage` forwards to validation. -/
def toValidateParams (input : CreateCodeImageInput) : ValidateParams :=
  { code := input.code, theme := input.theme, language := input.language,
    padding := input.padding, exportSize := input.exportSize,
    highlightedLines := input.highlightedLines }

/-- The error-code mapping over the validation message
(`create-code-image.ts` lines 269-283): a chain of
`validation.error?.includes(...)` checks, starting from
`"VALIDATION_ERROR"`. -/
def mapValidationErrorCode (error : Option String) : String :=
  let inc := fun (needle : String) =>
    match error with
    | some msg => strIncludes msg needle
    | none => false
  if inc "Code is required" then "INVALID_CODE"
  else if inc "Invalid theme ID" then "INVALID_THEME"
  else if inc "Invalid language ID" then "INVALID_LANGUAGE"
  else if inc "Invalid padding" then "INVALID_PADDING"
  else if inc "Invalid export size" then "INVALID_EXPORT_SIZE"
  else if inc "Invalid highlighted lines" then "INVALID_HIGHLIGHTED_LINES"
  else "VALIDATION_ERROR"

/-- `getPngDimensions` (`create-code-image.ts` lines 238-249): read the
width and height fields of the PNG IHDR chunk, guarding short buffers. -/
def getPngDimensions (buffer : ByteBuffer) : Nat × Nat :=
  if buffer.length < 24 then (0, 0)
  else (readUInt32BE buffer 16, readUInt32BE buffer 20)

/-- The catch-clause of `createCodeImage` (lines 350-373): pass through a
`ScreenshotError`'s own message and code; otherwise `TIMEOUT` when the
thrown `Error`'s message contains "timed out", else `GENERATION_FAILED`. -/
def mapGenerationFailure : CaptureFailure → CreateCodeImageResult
  | .screenshotError se => .failure se.message se.code
  | .raw (.err msg) =>
      if strIncludes msg "timed out" then
        .failure "Image generation timed out. Please try with a smaller code snippet."
          "TIMEOUT"
      else
        .failure ("Failed to generate image: " ++ msg) "GENERATION_FAILED"
  | .raw (.other s) =>
      .failure ("Failed to generate image: " ++ s) "GENERATION_FAILED"

/-- `GENERATION_TIMEOUT` (`create-code-image.ts` line 232). -/
def GENERATION_TIMEOUT : Nat := 30000

/-- `createCodeImage` (`create-code-image.ts` lines 257-374): validate,
map a validation failure to its error code, otherwise apply defaults,
auto-detect the language when absent, generate the HTML, race
`captureScreenshotFullContent` (with `pixelRatio := exportSize` and
`timeout := GENERATION_TIMEOUT`) against a 30s timer (`timedOut` records
whether the timer won), and format the outcome. The second component
records the rendering-stack interactions: note that no
`acquirePermit`/`releasePermit` event is ever emitted — the admission
gate is not on this path. -/
def createCodeImage (themeIds langIds : List String) (collab : Collaborators)
    (timedOut : Bool) (env : PageEnv) (input : CreateCodeImageInput) :
    CreateCodeImageResult × List RenderEvent :=
  let validation := validateCodeImageParams themeIds langIds (toValidateParams input)
  if validation.valid then
    let theme := jsOrStr input.theme "vercel"
    let darkMode := input.darkMode.getD true
    let padding := jsOrNat input.padding 64
    let background := input.background.getD true
    let lineNumbers := input.lineNumbers.getD false
    let fileName := jsOrStr input.fileName ""
    let highlightedLines := input.highlightedLines.getD []
    let exportSize := jsOrNat input.exportSize 2
    let language := jsOrStr input.language (collab.detectLanguage input.code)
    let _html := collab.generateCodeFrameHtml
      { code := input.code, theme := theme, darkMode := darkMode,
        language := language, padding := padding, background := background,
        lineNumbers := lineNumbers, fileName := fileName,
        highlightedLines := highlightedLines }
    let captureResult := captureScreenshotFullContent
      { pixelRatio := some exportSize, timeout := some GENERATION_TIMEOUT }
      env
    let events := [RenderEvent.generateHtml, RenderEvent.captureCall]
    if timedOut then
      (mapGenerationFailure
        (.raw (.err s!"Image generation timed out after {GENERATION_TIMEOUT}ms")),
        events)
    else
      match captureResult with
      | .ok buffer =>
          let dims := getPngDimensions buffer
          (.success (base64Encode buffer) "image/png" dims.1 dims.2, events)
      | .error f => (mapGenerationFailure f, events)
  else
    (.failure (jsOrStr validation.error "Invalid input parameters")
      (mapValidationErrorCode validation.error), [])

/-! ## Concrete fixtures used by witnesses and counterexamples -/

/-- All-zero DOM measurements. -/
def zeroMetrics : DomMetrics :=
  { bodyScrollWidth := 0, bodyOffsetWidth := 0, bodyClientWidth := 0,
    htmlClientWidth := 0, htmlScrollWidth := 0, htmlOffsetWidth := 0,
    bodyScrollHeight := 0, bodyOffsetHeight := 0, bodyClientHeight := 0,
    htmlClientHeight := 0, htmlScrollHeight := 0, htmlOffsetHeight := 0 }

/-- A stand-in PNG byte buffer long enough for `getPngDimensions`. -/
def pngStub : ByteBuffer := List.replicate 24 0

/-- Empty full-content options (all defaults). -/
def fcDefaultOpts : FullContentOptions := {}

/-- Empty fixed-viewport options (all defaults). -/
def scDefaultOpts : ScreenshotOptions := {}

/-- A page environment whose content load throws a Playwright timeout
error (surface acquisition succeeds). -/
def fcFailEnv : PageEnv :=
  { acquireOutcome := none,
    loadOutcome := some (.err "page.setContent: Timeout 10000ms exceeded"),
    metrics := zeroMetrics, shotOutcome := fun _ _ => Except.ok pngStub }

/-- A page environment whose surface acquisition (browser launch /
context / page creation) throws. -/
def acqFailEnv : PageEnv :=
  { acquireOutcome := some (.err "browserType.launch: Executable does not exist"),
    loadOutcome := none, metrics := zeroMetrics,
    shotOutcome := fun _ _ => Except.ok pngStub }

/-- A page environment where acquisition, load and snapshot all succeed. -/
def okEnv : PageEnv :=
  { acquireOutcome := none, loadOutcome := none, metrics := zeroMetrics,
    shotOutcome := fun _ _ => Except.ok pngStub }

/-- Theme table keys used in fixtures. -/
def ccThemes : List String := ["vercel"]

/-- Language table keys used in fixtures. -/
def ccLangs : List String := ["javascript"]

/-- Constant collaborators used in fixtures. -/
def ccCollab : Collaborators :=
  { detectLanguage := fun _ => "javascript",
    generateCodeFrameHtml := fun _ => "<html></html>" }

/-- A minimal valid tool input. -/
def ccInput : CreateCodeImageInput := { code := "x=1" }

/-- A tool input with empty code. -/
def c9input : CreateCodeImageInput := { code := "" }

/-! ## Helper lemmas -/

theorem classify_code_mem (t : Thrown) :
    screenshotErrCodes.contains (classifyCaptureErr t).code = true := by
  cases t with
  | err msg =>
      simp only [classifyCaptureErr]
      split
      · rfl
      · split
        · rfl
        · rfl
  | other s => rfl

theorem semStep_timeoutDrop_inv {s : SemState} {w : Nat} {s1 : SemState}
    (h : SemStep s (.timeoutDrop w) s1) :
    w ∈ s.waiting ∧ s1 = { s with waiting := s.waiting.erase w } := by
  cases h
  rename_i hmem
  exact ⟨hmem, rfl⟩

theorem performCapture_error_code (vp : Viewport) (env : PageEnv)
    (e : CaptureFailure) (hacq : env.acquireOutcome = none)
    (h : performCapture vp env = .error e) :
    ∃ se, e = .screenshotError se ∧
      screenshotErrCodes.contains se.code = true := by
  unfold performCapture at h
  rw [hacq] at h
  cases hl : env.loadOutcome with
  | some t =>
      rw [hl] at h
      injection h with h2
      exact ⟨classifyCaptureErr t, h2.symm, classify_code_mem t⟩
  | none =>
      rw [hl] at h
      cases hs : env.shotOutcome performCaptureShotOptions vp with
      | ok b => rw [hs] at h; cases h
      | error t =>
          rw [hs] at h
          injection h with h2
          exact ⟨classifyCaptureErr t, h2.symm, classify_code_mem t⟩

/-! ## Claim theorems -/

/-- CLAIM C1, counterexample. The claim asserts that every validated
`create_code_image` call acquires an admission permit before the capture
pipeline runs. At the concrete valid input `ccInput`, the interaction
trace of `createCodeImage` contains the capture call but no
`acquirePermit` event: the capture runs without any permit. -/
theorem createCodeImage_capture_without_permit_cex :
    RenderEvent.captureCall ∈
      (createCodeImage ccThemes ccLangs ccCollab false okEnv ccInput).2 ∧
    RenderEvent.acquirePermit ∉
      (createCodeImage ccThemes ccLangs ccCollab false okEnv ccInput).2 := by
  decide

/-- CLAIM C1, amended: for every `create_code_image` call that passes
validation, the capture is performed with no admission-gate interaction
at all — the trace is exactly HTML generation followed by the capture
call, with no `acquirePermit` or `releasePermit` event. The gate
(`withRenderSlot` / `acquireRenderSlot`) exists in the repository but is
not on this path. -/
theorem createCodeImage_no_admission_gate (themeIds langIds : List String)
    (collab : Collaborators) (timedOut : Bool) (env : PageEnv)
    (input : CreateCodeImageInput)
    (hvalid : (validateCodeImageParams themeIds langIds
      (toValidateParams input)).valid = true) :
    (createCodeImage themeIds langIds collab timedOut env input).2 =
      [RenderEvent.generateHtml, RenderEvent.captureCall] ∧
    RenderEvent.acquirePermit ∉
      (createCodeImage themeIds langIds collab timedOut env input).2 ∧
    RenderEvent.releasePermit ∉
      (createCodeImage themeIds langIds collab timedOut env input).2 := by
  have hmain : (createCodeImage themeIds langIds collab timedOut env input).2 =
      [RenderEvent.generateHtml, RenderEvent.captureCall] := by
    simp only [createCodeImage, hvalid, if_true]
    split
    · rfl
    · split
      · rfl
      · rfl
  refine ⟨hmain, ?_, ?_⟩
  · rw [hmain]; decide
  · rw [hmain]; decide

/-- Witness for `createCodeImage_no_admission_gate` at the concrete valid
input `ccInput`. -/
theorem createCodeImage_no_admission_gate_witness :
    (createCodeImage ccThemes ccLangs ccCollab false okEnv ccInput).2 =
      [RenderEvent.generateHtml, RenderEvent.captureCall] ∧
    RenderEvent.releasePermit ∉
      (createCodeImage ccThemes ccLangs ccCollab false okEnv ccInput).2 := by
  have h := createCodeImage_no_admission_gate ccThemes ccLangs ccCollab false
    okEnv ccInput (by decide)
  exact ⟨h.1, h.2.2⟩

/-- CLAIM C2, counterexample. The claim asserts that every failure of
`captureScreenshotFullContent` is surfaced as a `ScreenshotError` with one
of the four taxonomy codes. At a content load that throws a raw timeout
error, the function propagates the raw thrown value unwrapped. -/
theorem captureFullContent_unwrapped_failure_cex :
    captureScreenshotFullContent fcDefaultOpts fcFailEnv =
      Except.error (.raw (.err "page.setContent: Timeout 10000ms exceeded")) ∧
    failureInTaxonomy
      (.raw (.err "page.setContent: Timeout 10000ms exceeded")) = false :=
  ⟨rfl, rfl⟩

/-- CLAIM C2, amended: failures of `captureScreenshot` raised inside its
classifying `try` block — content load and snapshot, reached once surface
acquisition succeeded — are surfaced as `ScreenshotError`s carrying
exactly one of the four taxonomy codes, with the classifier attaching the
original thrown cause (the outer `TIMEOUT` error carries no cause); but a
failure of `getBrowser`/`newContext`/`newPage`, which run before the
`try`, rejects `captureScreenshot` with the raw unwrapped error, and
`captureScreenshotFullContent` wraps nothing at all — every failure
(acquisition, load or snapshot) propagates as the raw underlying value,
with no outer timeout race. -/
theorem capture_error_taxonomy :
    (∀ (opts : ScreenshotOptions) (timedOut : Bool) (env : PageEnv)
      (e : CaptureFailure),
      env.acquireOutcome = none →
      captureScreenshot opts timedOut env = .error e →
      ∃ se, e = .screenshotError se ∧
        screenshotErrCodes.contains se.code = true) ∧
    (∀ (opts : ScreenshotOptions) (env : PageEnv) (t : Thrown),
      env.acquireOutcome = some t →
      captureScreenshot opts false env = .error (.raw t)) ∧
    (∀ t, (classifyCaptureErr t).cause = some t) ∧
    (∀ (fopts : FullContentOptions) (fenv : PageEnv) (t : Thrown),
      fenv.acquireOutcome = some t →
      captureScreenshotFullContent fopts fenv = .error (.raw t)) ∧
    (∀ (fopts : FullContentOptions) (fenv : PageEnv) (t : Thrown),
      fenv.acquireOutcome = none → fenv.loadOutcome = some t →
      captureScreenshotFullContent fopts fenv = .error (.raw t)) ∧
    (∀ (fopts : FullContentOptions) (fenv : PageEnv) (t : Thrown),
      fenv.acquireOutcome = none → fenv.loadOutcome = none →
      fenv.shotOutcome fullContentShotOptions
        (fullContentFinalViewport fopts fenv.metrics) = .error t →
      captureScreenshotFullContent fopts fenv = .error (.raw t)) := by
  refine ⟨?_, ?_, ?_, ?_, ?_, ?_⟩
  · intro opts timedOut env e hacq h
    unfold captureScreenshot at h
    cases timedOut with
    | true =>
        simp only [if_true] at h
        injection h with h2
        exact ⟨_, h2.symm, rfl⟩
    | false =>
        simp only [Bool.false_eq_true, if_false] at h
        exact performCapture_error_code _ env e hacq h
  · intro opts env t hacq
    simp only [captureScreenshot, performCapture, Bool.false_eq_true,
      if_false, hacq]
  · intro t
    cases t with
    | err msg =>
        simp only [classifyCaptureErr]
        split
        · rfl
        · split
          · rfl
          · rfl
    | other s => rfl
  · intro fopts fenv t hacq
    unfold captureScreenshotFullContent
    rw [hacq]
  · intro fopts fenv t hacq hl
    unfold captureScreenshotFullContent
    rw [hacq, hl]
  · intro fopts fenv t hacq hl hs
    unfold captureScreenshotFullContent
    rw [hacq, hl, hs]

/-- Witness for `capture_error_taxonomy` at concrete inputs: a timed-out
fixed-viewport capture, a raw acquisition failure escaping
`captureScreenshot` unwrapped, a concrete classified cause, and a
concrete full-content load failure. -/
theorem capture_error_taxonomy_witness :
    (∃ se, (CaptureFailure.screenshotError
        { message := "Screenshot capture timed out after 30000ms",
          code := "TIMEOUT", cause := none }) = .screenshotError se ∧
      screenshotErrCodes.contains se.code = true) ∧
    captureScreenshot scDefaultOpts false acqFailEnv =
      .error (.raw (.err "browserType.launch: Executable does not exist")) ∧
    (classifyCaptureErr (.err "boom")).cause = some (.err "boom") ∧
    captureScreenshotFullContent fcDefaultOpts fcFailEnv =
      .error (.raw (.err "page.setContent: Timeout 10000ms exceeded")) := by
  have h := capture_error_taxonomy
  exact ⟨h.1 scDefaultOpts true fcFailEnv _ rfl rfl,
    h.2.1 scDefaultOpts acqFailEnv _ rfl,
    h.2.2.1 _,
    h.2.2.2.2.1 fcDefaultOpts fcFailEnv _ rfl rfl⟩

/-- CLAIM C3, counterexample. The claim asserts the fixed-viewport
snapshot is taken "without forcing a background fill (respects
transparency)"; the snapshot options of `performCapture` set
`omitBackground: false`, which paints the default background, so
transparency is not preserved. -/
theorem performCapture_transparency_cex :
    ¬ preservesTransparency performCaptureShotOptions = true := by
  decide

/-- CLAIM C3, amended: the fixed-viewport capture snapshots the visible
viewport only (`fullPage: false`) as a lossless PNG, but with
`omitBackground: false` — the default background fill is applied, so
transparency of the rendered content is not preserved. -/
theorem performCapture_snapshot_options (env : PageEnv) (vp : Viewport)
    (b : ByteBuffer) (hacq : env.acquireOutcome = none)
    (hload : env.loadOutcome = none)
    (hshot : env.shotOutcome performCaptureShotOptions vp = .ok b) :
    performCapture vp env = .ok b ∧
    performCaptureShotOptions.type = "png" ∧
    performCaptureShotOptions.fullPage = false ∧
    preservesTransparency performCaptureShotOptions = false := by
  refine ⟨?_, rfl, rfl, rfl⟩
  unfold performCapture
  rw [hacq, hload, hshot]

/-- Witness for `performCapture_snapshot_options` at a concrete
environment. -/
theorem performCapture_snapshot_options_witness :
    performCapture defaultViewport okEnv = .ok pngStub ∧
    preservesTransparency performCaptureShotOptions = false := by
  have h := performCapture_snapshot_options okEnv defaultViewport pngStub rfl rfl
    rfl
  exact ⟨h.1, h.2.2.2⟩

/-- CLAIM C4: after any sequence of `getPage`/`releasePage` operations the
available set never exceeds `MAX_POOL_SIZE = 5`, no surface is tracked in
both the available and in-use sets (nor twice in either), and a release
performed while the available set holds exactly 5 entries leaves the
available set unchanged and destroys that surface instead of pooling it. -/
theorem pagePool_invariant (ops : List PoolOp) (p : PoolPage) :
    (runPool ops).availablePages.length ≤ MAX_POOL_SIZE ∧
    (poolIds (runPool ops)).Nodup ∧
    (p.id ∈ (runPool ops).pagesInUse → p.closed = false →
      (runPool ops).availablePages.length = MAX_POOL_SIZE →
      (releasePage p (runPool ops)).availablePages =
        (runPool ops).availablePages ∧
      p.id ∈ (releasePage p (runPool ops)).destroyedPages) := by
  have hinv := poolInv_runPool ops
  refine ⟨hinv.1, hinv.2.1, ?_⟩
  intro hm hc hfull
  have hnlt : ¬ (runPool ops).availablePages.length < MAX_POOL_SIZE := by
    omega
  have hred : releasePage p (runPool ops) =
      { runPool ops with
        pagesInUse := (runPool ops).pagesInUse.erase p.id,
        destroyedPages := p.id :: (runPool ops).destroyedPages } := by
    simp [releasePage, hm, hc, hnlt]
  rw [hred]
  exact ⟨rfl, by simp⟩

/-- A page value as created fresh by the pool with default configuration. -/
def poolPageN (i : Nat) : PoolPage :=
  { id := i, width := 800, height := 600, deviceScaleFactor := 2,
    closed := false }

/-- Six acquisitions followed by five releases: fills the available stack
to the cap with one surface still in use. -/
def c4ops : List PoolOp :=
  [.get {}, .get {}, .get {}, .get {}, .get {}, .get {},
   .release (poolPageN 0), .release (poolPageN 1), .release (poolPageN 2),
   .release (poolPageN 3), .release (poolPageN 4)]

/-- Witness for `pagePool_invariant`: after `c4ops` the available stack
holds exactly 5 pages; releasing the sixth page destroys it. -/
theorem pagePool_invariant_witness :
    (runPool c4ops).availablePages.length ≤ MAX_POOL_SIZE ∧
    (releasePage (poolPageN 5) (runPool c4ops)).availablePages =
      (runPool c4ops).availablePages ∧
    (poolPageN 5).id ∈
      (releasePage (poolPageN 5) (runPool c4ops)).destroyedPages := by
  have h := pagePool_invariant c4ops (poolPageN 5)
  have h3 := h.2.2 (by decide) (by decide) (by decide)
  exact ⟨h.1, h3.1, h3.2⟩

/-- CLAIM C5: starting from `new Semaphore(n)`, under properly paired
acquire/release operations the available-permit count stays in `[0, n]`
(the lower bound is inherent in the `Nat` embedding), and across every
step the count changes exactly by releases minus grants — in particular
the enqueue step (a caller starting to wait) never decrements it: the
decrement happens only at the moment of grant, whether immediate
(`acquireNow`) or via queue wakeup on release (`releaseWake`). -/
theorem semaphore_permit_count_invariant (n : Nat) (s : SemState)
    (h : SemReachable n s) :
    s.permits ≤ n ∧
    ∀ (l : SemLabel) (s' : SemState), SemStep s l s' →
      s'.permits + grantsOf l = s.permits + releasesOf l := by
  have hinv := semInv_reachable h
  refine ⟨?_, fun l s' hs => semStep_permits_accounting hs⟩
  have := hinv.1
  omega

/-- State after one immediate acquisition on a one-permit semaphore. -/
def semSA : SemState :=
  { permits := 0, waiting := [], active := 1, nextWaiter := 0 }

/-- Witness for `semaphore_permit_count_invariant` at the initial
one-permit state, taking the immediate-acquire step. -/
theorem semaphore_permit_count_invariant_witness :
    (initSemState 1).permits ≤ 1 ∧
    semSA.permits + grantsOf .acquireNow =
      (initSemState 1).permits + releasesOf .acquireNow := by
  have h := semaphore_permit_count_invariant 1 (initSemState 1) SemReachable.init
  refine ⟨h.1, h.2 .acquireNow semSA ?_⟩
  exact SemStep.acquireNow (initSemState 1) (by decide)

/-- The boolean an `acquire` call's promise resolves with when a step
settles it: `true` at a grant, `false` at a timeout. -/
def acquireResolution : SemLabel → Option Bool
  | .acquireNow => some true
  | .releaseWake _ => some true
  | .timeoutDrop _ => some false
  | _ => none

/-- CLAIM C8: when a waiter times out, its `acquire` resolves `false`
(and `acquireRenderSlot` maps that to `null` — no exception, encoded by
the `Option` result), the waiter is removed from the FIFO queue, and in
any subsequent run it is never granted a permit. -/
theorem semaphore_timeout_denied (n w : Nat) (s s1 s2 : SemState)
    (ls : List SemLabel) (hreach : SemReachable n s)
    (hdrop : SemStep s (.timeoutDrop w) s1) (htr : SemTrace s1 ls s2) :
    acquireResolution (.timeoutDrop w) = some false ∧
    acquireRenderSlot false = (none, []) ∧
    w ∉ s1.waiting ∧
    SemLabel.releaseWake w ∉ ls := by
  have hinv := semInv_reachable hreach
  obtain ⟨hmemw, hs1⟩ := semStep_timeoutDrop_inv hdrop
  subst hs1
  have hnodup : s.waiting.Nodup := hinv.2.2.1
  have hgone : WaiterGone w { s with waiting := s.waiting.erase w } := by
    refine ⟨?_, ?_⟩
    · intro hmem
      have hmem' : w ∈ s.waiting.erase w := hmem
      have := (hnodup.mem_erase_iff).mp hmem'
      exact this.1 rfl
    · show w < s.nextWaiter
      exact hinv.2.2.2 w hmemw
  have htrres := waiterGone_trace hgone htr
  exact ⟨rfl, rfl, hgone.1, htrres.1⟩

/-- One-permit semaphore with one active holder and one queued waiter. -/
def semSB : SemState :=
  { permits := 0, waiting := [0], active := 1, nextWaiter := 1 }

/-- `semSB` after waiter 0 times out. -/
def semSC : SemState :=
  { permits := 0, waiting := [], active := 1, nextWaiter := 1 }

/-- `semSC` after the holder releases with an empty queue. -/
def semSD : SemState :=
  { permits := 1, waiting := [], active := 0, nextWaiter := 1 }

/-- Witness for `semaphore_timeout_denied` on a concrete run: acquire,
enqueue, timeout, release. -/
theorem semaphore_timeout_denied_witness :
    acquireResolution (.timeoutDrop 0) = some false ∧
    acquireRenderSlot false = (none, []) ∧
    (0 : Nat) ∉ semSC.waiting ∧
    SemLabel.releaseWake 0 ∉ ([SemLabel.releaseIdle] : List SemLabel) := by
  have hstep1 : SemReachable 1 semSA :=
    SemReachable.step SemReachable.init
      (SemStep.acquireNow (initSemState 1) (by decide))
  have hreach : SemReachable 1 semSB :=
    SemReachable.step hstep1 (SemStep.enqueue semSA rfl)
  have hdrop : SemStep semSB (.timeoutDrop 0) semSC :=
    SemStep.timeoutDrop semSB 0 (by decide)
  have htr : SemTrace semSC [SemLabel.releaseIdle] semSD :=
    SemTrace.cons (SemStep.releaseIdle semSC (by decide) rfl) (SemTrace.nil _)
  exact semaphore_timeout_denied 1 0 semSB semSC semSD
    [SemLabel.releaseIdle] hreach hdrop htr

theorem bm_window_trace {L : Nat} {s : BMState} {ls : List BMLabel}
    {s' : BMState} (hinv : BMInv s) (hL : s.browserLaunch = some L)
    (htr : BMTrace s ls s')
    (hnores : ∀ l ok, BMLabel.launchResolved l ok ∉ ls) :
    (∀ r, BMLabel.served r ∈ ls → r = .joinLaunch L) ∧
    s'.launchCount = s.launchCount ∧ s'.browserLaunch = some L := by
  induction htr with
  | nil s => exact ⟨by simp, rfl, hL⟩
  | cons hstep htail ih =>
      obtain ⟨hL', hinv', hcount, hserved⟩ :=
        bm_pending_window hinv hL hstep (fun l' ok heq => by
          refine hnores l' ok ?_
          rw [← heq]
          exact List.mem_cons_self _ _)
      obtain ⟨ihserved, ihcount, ihL⟩ :=
        ih hinv' hL' (fun l' ok hm => hnores l' ok (List.mem_cons_of_mem _ hm))
      refine ⟨?_, ihcount.trans hcount, ihL⟩
      intro r hr
      rcases List.mem_cons.mp hr with hr | hr
      · exact hserved r hr.symm
      · exact ihserved r hr

/-- CLAIM C6: while a launch `L` is in progress, every `getBrowser` call
served before `L` resolves joins that same pending launch (so all
concurrent callers await the same launch promise and hence receive its
single result, success or failure), and no additional underlying launch
is started: the launch counter is unchanged across the whole window and
the pending launch is still `L`. -/
theorem getBrowser_single_flight (s : BMState) (L : Nat) (ls : List BMLabel)
    (s' : BMState) (hreach : BMReachable s) (hL : s.browserLaunch = some L)
    (htr : BMTrace s ls s')
    (hnores : ∀ l ok, BMLabel.launchResolved l ok ∉ ls) :
    (∀ r, BMLabel.served r ∈ ls → r = .joinLaunch L) ∧
    s'.launchCount = s.launchCount ∧
    s'.browserLaunch = some L :=
  bm_window_trace (bmInv_reachable hreach) hL htr hnores

/-- State after the first `getBrowser` call started launch 0. -/
def bmS1 : BMState :=
  { browserInstance := none, browserLaunch := some 0, nextLaunchId := 1,
    launchCount := 1 }

/-- Two further `getBrowser` calls arriving while launch 0 is pending. -/
def bmJoinTrace : List BMLabel :=
  [.served (.joinLaunch 0), .served (.joinLaunch 0)]

/-- Witness for `getBrowser_single_flight`: two concurrent callers join
launch 0 and the launch counter stays at 1. -/
theorem getBrowser_single_flight_witness :
    bmS1.browserLaunch = some 0 ∧ bmS1.launchCount = bmS1.launchCount := by
  have hreach : BMReachable bmS1 :=
    BMReachable.step BMReachable.init
      (BMStep.getStart initBMState
        (fun b hb => by simp [initBMState] at hb) rfl)
  have hjoin : BMStep bmS1 (.served (.joinLaunch 0)) bmS1 :=
    BMStep.getJoin bmS1 0 (fun b hb => by simp [bmS1] at hb) rfl
  have htr : BMTrace bmS1 bmJoinTrace bmS1 :=
    BMTrace.cons hjoin (BMTrace.cons hjoin (BMTrace.nil _))
  have h := getBrowser_single_flight bmS1 0 bmJoinTrace bmS1 hreach rfl htr
    (by intro l ok hm; simp [bmJoinTrace] at hm)
  exact ⟨h.2.2, h.2.1⟩

/-- CLAIM C7: content-fit capture opens the context at the maximum bounds
(default 2000x5000), the code's five-way content measurement agrees with
the spec's "maximum of the scroll/offset/client extents over body and
root" under the DOM guarantee that an element's client extent never
exceeds its offset extent, and the final viewport is exactly
`min(measured, max)` per dimension — never exceeding the caps. -/
theorem fullContent_viewport_fit (opts : FullContentOptions) (m : DomMetrics)
    (hw : m.bodyClientWidth ≤ m.bodyOffsetWidth)
    (hh : m.bodyClientHeight ≤ m.bodyOffsetHeight) :
    fullContentContextViewport opts =
      { width := opts.maxWidth.getD 2000, height := opts.maxHeight.getD 5000 } ∧
    fullContentContextViewport fcDefaultOpts = { width := 2000, height := 5000 } ∧
    measureWidth m = specMeasuredWidth m ∧
    measureHeight m = specMeasuredHeight m ∧
    fullContentFinalViewport opts m =
      { width := min (measureWidth m) (opts.maxWidth.getD 2000),
        height := min (measureHeight m) (opts.maxHeight.getD 5000) } ∧
    (fullContentFinalViewport opts m).width ≤ opts.maxWidth.getD 2000 ∧
    (fullContentFinalViewport opts m).height ≤ opts.maxHeight.getD 5000 := by
  refine ⟨rfl, rfl, ?_, ?_, rfl, ?_, ?_⟩
  · simp only [measureWidth, specMeasuredWidth]
    omega
  · simp only [measureHeight, specMeasuredHeight]
    omega
  · show min (measureWidth m) (opts.maxWidth.getD 2000) ≤ opts.maxWidth.getD 2000
    omega
  · show min (measureHeight m) (opts.maxHeight.getD 5000) ≤ opts.maxHeight.getD 5000
    omega

/-- Measurements whose natural size exceeds the default caps in both
dimensions. -/
def c7metrics : DomMetrics :=
  { bodyScrollWidth := 3000, bodyOffsetWidth := 500, bodyClientWidth := 400,
    htmlClientWidth := 300, htmlScrollWidth := 200, htmlOffsetWidth := 100,
    bodyScrollHeight := 7000, bodyOffsetHeight := 600, bodyClientHeight := 500,
    htmlClientHeight := 400, htmlScrollHeight := 300, htmlOffsetHeight := 200 }

/-- Witness for `fullContent_viewport_fit` at default options and
`c7metrics`: the 3000x7000 content is clamped to the 2000x5000 caps. -/
theorem fullContent_viewport_fit_witness :
    measureWidth c7metrics = specMeasuredWidth c7metrics ∧
    fullContentFinalViewport fcDefaultOpts c7metrics =
      { width := 2000, height := 5000 } ∧
    (fullContentFinalViewport fcDefaultOpts c7metrics).width ≤ 2000 := by
  have h := fullContent_viewport_fit fcDefaultOpts c7metrics (by decide) (by decide)
  refine ⟨h.2.2.1, ?_, h.2.2.2.2.2.1⟩
  decide

/-- CLAIM C9: for empty code, `createCodeImage` returns the
`INVALID_CODE` failure straight from validation, with an empty
interaction trace — no HTML generation and no capture (hence no engine
launch or surface creation, which only happen inside the capture) is
initiated, for every environment and collaborator. -/
theorem createCodeImage_empty_code (themeIds langIds : List String)
    (collab : Collaborators) (timedOut : Bool) (env : PageEnv)
    (input : CreateCodeImageInput) (h : input.code = "") :
    createCodeImage themeIds langIds collab timedOut env input =
      (.failure "Code is required and must be a non-empty string"
        "INVALID_CODE", []) := by
  have hcode : isValidCode (toValidateParams input).code = false := by
    simp [toValidateParams, h, isValidCode]
  have hval : validateCodeImageParams themeIds langIds (toValidateParams input) =
      { valid := false,
        error := some "Code is required and must be a non-empty string" } := by
    unfold validateCodeImageParams
    rw [hcode]
    simp
  simp only [createCodeImage, hval, Bool.false_eq_true, if_false]
  decide

/-- Witness for `createCodeImage_empty_code` at the concrete empty-code
input. -/
theorem createCodeImage_empty_code_witness :
    createCodeImage ccThemes ccLangs ccCollab false okEnv c9input =
      (.failure "Code is required and must be a non-empty string"
        "INVALID_CODE", []) :=
  createCodeImage_empty_code ccThemes ccLangs ccCollab false okEnv c9input rfl

/-- CLAIM C10: when `getPage` reuses a pooled surface, only the viewport
width/height are re-applied; the surface keeps the device scale factor of
the context it was created with, so whenever the requested scale differs
from the pooled one, the returned surface does not have the requested
pixel density. -/
theorem getPage_reuse_keeps_scale (cfg : PartialPageConfig) (s : PoolState)
    (p : PoolPage) (rest : List PoolPage)
    (h : s.availablePages = p :: rest) :
    (getPage cfg s).1.deviceScaleFactor = p.deviceScaleFactor ∧
    (getPage cfg s).1.width = (mergePageConfig cfg).width ∧
    (getPage cfg s).1.height = (mergePageConfig cfg).height ∧
    ((mergePageConfig cfg).deviceScaleFactor ≠ p.deviceScaleFactor →
      (getPage cfg s).1.deviceScaleFactor ≠
        (mergePageConfig cfg).deviceScaleFactor) := by
  have hred : (getPage cfg s).1 =
      { p with width := (mergePageConfig cfg).width,
               height := (mergePageConfig cfg).height } := by
    unfold getPage
    rw [h]
  rw [hred]
  exact ⟨rfl, rfl, rfl, fun hne hcontra => hne hcontra.symm⟩

/-- A pool holding one idle surface created at scale factor 2. -/
def c10state : PoolState :=
  { availablePages := [poolPageN 0], pagesInUse := [], destroyedPages := [],
    nextPageId := 1 }

/-- A configuration requesting scale factor 4. -/
def c10cfg : PartialPageConfig := { deviceScaleFactor := some 4 }

/-- Witness for `getPage_reuse_keeps_scale`: requesting scale 4 on a
pooled scale-2 surface returns a scale-2 surface. -/
theorem getPage_reuse_keeps_scale_witness :
    (getPage c10cfg c10state).1.deviceScaleFactor = 2 ∧
    (getPage c10cfg c10state).1.deviceScaleFactor ≠ 4 := by
  have h := getPage_reuse_keeps_scale c10cfg c10state (poolPageN 0) [] rfl
  exact ⟨h.1, h.2.2.2 (by decide)⟩

end RaySo
